import Mathlib

/-!
Shallow embedding of the LogPose service registry (crates logpose-core,
logpose-db, logpose-server).

The SQLite-backed `DbRegistry` is modelled as a pure state `DbState` whose
four fields mirror the four tables created in `init_tables` (sqlite.rs).
Each `RegistryStore` operation becomes a pure function from `DbState`
(returning `Except RegistryError _`, mirroring `Result<_, RegistryError>`).

Modelling conventions:
- `Uuid` and `SocketAddr` are kept as `String`: the store writes them with
  `to_string()` and reads them back with `parse().unwrap()`, an exact
  round-trip for every value produced by the domain types.
- `serde_json` round-trip of the `metadata` string map is modelled as the
  identity on the map (the store serialises with `serde_json::to_string`
  and deserialises with `serde_json::from_str`); no claim touches metadata
  contents.
- `format!("{:?}", ...)` on the enum-like fields (protocol, runtime,
  health) is translated into explicit `debugFmt` functions reproducing
  Rust's `derive(Debug)` output, including the `Tag { field: value }`
  rendering for struct variants.
- SQL `INSERT OR REPLACE` keyed by a primary key is modelled as
  filter-out-the-key then append; `UPDATE ... WHERE` as a `map` over rows;
  `SELECT ... WHERE` as `filter`/`find?`.
-/

/-- Protocol, from logpose-core/src/protocol.rs. -/
inductive Protocol where
  | Http
  | Https
  | Tcp
  | Grpc
  | Udp
  | Custom (s : String)
deriving DecidableEq, Repr

/-- Runtime, from logpose-core/src/runtime.rs (a tagged union). -/
inductive Runtime where
  | Vm (provider : Option String) (id : Option String)
  | Container (container_id : String)
  | Serverless (function_name : String) (region : Option String)
  | Custom (s : String)
deriving DecidableEq, Repr

/-- HealthStatus, from logpose-core/src/health.rs. -/
inductive HealthStatus where
  | Healthy
  | Unhealthy
  | Unknown
deriving DecidableEq, Repr

/-- Role, from logpose-core/src/auth.rs. -/
inductive Role where
  | Admin
  | Agent
  | Viewer
deriving DecidableEq, Repr

/-- Permission, from logpose-core/src/auth.rs. -/
inductive Permission where
  | ServiceRead
  | ServiceWrite
  | InstanceRead
  | InstanceWrite
  | UserManage
deriving DecidableEq, Repr

/-- RegistryError, from logpose-core/src/registry.rs. -/
inductive RegistryError where
  | ServiceNotFound
  | InstanceNotFound
  | DuplicateInstance
deriving DecidableEq, Repr

/-- ServiceInstance, from logpose-core/src/instance.rs; `id : Uuid` and
`address : SocketAddr` are modelled as strings, `metadata` as an
association list. -/
structure ServiceInstance where
  id : String
  service_name : String
  address : String
  protocol : Protocol
  runtime : Runtime
  metadata : List (String × String)
  last_seen : Nat
  health : HealthStatus
deriving DecidableEq, Repr

/-- Service, from logpose-core/src/service.rs. -/
structure Service where
  name : String
  code : String
  description : String
  instances : List ServiceInstance
  metadata : List (String × String)
deriving DecidableEq, Repr

/-- Identity, from logpose-core/src/auth.rs. -/
structure Identity where
  common_name : String
  organization : Option String
  roles : List Role
deriving DecidableEq, Repr

/-- Claims, from logpose-core/src/auth.rs. -/
structure Claims where
  sub : String
  roles : List Role
  exp : Nat
deriving DecidableEq, Repr

/-- Rust `Debug` rendering of one character inside a string literal
(escape_debug; exotic unicode escapes are not needed for any value the
development evaluates). -/
def rustCharEscape (c : Char) : String :=
  if c = '"' then "\\\""
  else if c = '\\' then "\\\\"
  else if c = '\n' then "\\n"
  else if c = '\r' then "\\r"
  else if c = '\t' then "\\t"
  else String.singleton c

/-- Rust `Debug` rendering of a `String`: quoted and escaped. -/
def rustDebugStr (s : String) : String :=
  "\"" ++ String.join (s.data.map rustCharEscape) ++ "\""

/-- Rust `Debug` rendering of an `Option<String>`. -/
def optionDebugFmt : Option String → String
  | none => "None"
  | some s => "Some(" ++ rustDebugStr s ++ ")"

/-- The string `format!("{:?}", protocol)` written by `add_instance`. -/
def Protocol.debugFmt : Protocol → String
  | .Http => "Http"
  | .Https => "Https"
  | .Tcp => "Tcp"
  | .Grpc => "Grpc"
  | .Udp => "Udp"
  | .Custom s => "Custom(" ++ rustDebugStr s ++ ")"

/-- The string `format!("{:?}", runtime)` written by `add_instance`: Rust's
`derive(Debug)` renders struct variants as `Tag \x7b field: value, ... \x7d`. -/
def Runtime.debugFmt : Runtime → String
  | .Vm provider id =>
      "Vm \x7b provider: " ++ optionDebugFmt provider ++ ", id: " ++ optionDebugFmt id ++ " \x7d"
  | .Container container_id =>
      "Container \x7b container_id: " ++ rustDebugStr container_id ++ " \x7d"
  | .Serverless function_name region =>
      "Serverless \x7b function_name: " ++ rustDebugStr function_name
        ++ ", region: " ++ optionDebugFmt region ++ " \x7d"
  | .Custom s => "Custom(" ++ rustDebugStr s ++ ")"

/-- The string `format!("{:?}", health)` written by `add_instance` and
`update_instance_health`. -/
def HealthStatus.debugFmt : HealthStatus → String
  | .Healthy => "Healthy"
  | .Unhealthy => "Unhealthy"
  | .Unknown => "Unknown"

/-- The protocol-column decoder in `get_instances`/`get_all_instances`
(sqlite.rs): match on the stored string, unknown strings become `Custom`. -/
def parseProtocol (s : String) : Protocol :=
  if s = "Http" then .Http
  else if s = "Https" then .Https
  else if s = "Tcp" then .Tcp
  else if s = "Grpc" then .Grpc
  else if s = "Udp" then .Udp
  else .Custom s

/-- The expression `runtime.split(':').next().unwrap_or("")` (sqlite.rs): the prefix of
the stored string up to (excluding) the first colon, or the whole string
when it has no colon. -/
def firstToken (s : String) : String :=
  String.mk (s.data.takeWhile (fun c => c ≠ ':'))

/-- The runtime-column decoder in `get_instances`/`get_all_instances`
(sqlite.rs): match the leading colon-token, reconstructing payload fields
as empty/default; unknown tokens become `Custom(token)`. -/
def parseRuntime (s : String) : Runtime :=
  let tok := firstToken s
  if tok = "Vm" then .Vm none none
  else if tok = "Container" then .Container ""
  else if tok = "Serverless" then .Serverless "" none
  else .Custom tok

/-- The health-column decoder in `get_instances`/`get_all_instances`
(sqlite.rs): anything other than Healthy/Unhealthy becomes `Unknown`. -/
def parseHealth (s : String) : HealthStatus :=
  if s = "Healthy" then .Healthy
  else if s = "Unhealthy" then .Unhealthy
  else .Unknown

/-- One row of the `services` table (init_tables, sqlite.rs). -/
structure ServiceRow where
  code : String
  name : String
  description : String
  metadata : List (String × String)
deriving DecidableEq, Repr

/-- One row of the `instances` table (init_tables, sqlite.rs): protocol,
runtime and health are stored as TEXT. -/
structure InstanceRow where
  id : String
  service_code : String
  address : String
  protocol : String
  runtime : String
  metadata : List (String × String)
  health : String
deriving DecidableEq, Repr

/-- One row of the `identities` table (init_tables, sqlite.rs). -/
structure IdentityRow where
  common_name : String
  organization : Option String
deriving DecidableEq, Repr

/-- The database state: the four tables created by `init_tables`
(sqlite.rs). `identity_roles` rows are (common_name, role) pairs. -/
structure DbState where
  services : List ServiceRow
  instances : List InstanceRow
  identities : List IdentityRow
  identity_roles : List (String × String)
deriving DecidableEq, Repr

/-- The empty database, as produced by `init_tables` on a fresh file. -/
def DbState.empty : DbState := ⟨[], [], [], []⟩

/-- Operation add_service (sqlite.rs): `INSERT OR REPLACE INTO services` keyed by
the `code` primary key; never inspects existing rows, so it upserts. -/
def add_service (s : DbState) (svc : Service) : Except RegistryError DbState :=
  .ok { s with services :=
    (s.services.filter (fun r => r.code ≠ svc.code))
      ++ [⟨svc.code, svc.name, svc.description, svc.metadata⟩] }

/-- The row `add_instance` (sqlite.rs) writes for an instance: id and
address via `to_string()`, protocol/runtime/health via `format!("{:?}")`. -/
def instanceRow (i : ServiceInstance) : InstanceRow :=
  ⟨i.id, i.service_name, i.address, i.protocol.debugFmt, i.runtime.debugFmt,
    i.metadata, i.health.debugFmt⟩

/-- Operation add_instance (sqlite.rs): `INSERT OR REPLACE INTO instances` keyed by
the `id` primary key. -/
def add_instance (s : DbState) (i : ServiceInstance) : Except RegistryError DbState :=
  .ok { s with instances :=
    (s.instances.filter (fun r => r.id ≠ i.id)) ++ [instanceRow i] }

/-- Operation get_service (sqlite.rs): `query_row` on the `code` primary key; no
row maps the `QueryReturnedNoRows` error to `ServiceNotFound`; the built
`Service` always carries `instances: Vec::new()`. -/
def get_service (s : DbState) (code : String) : Except RegistryError Service :=
  match s.services.find? (fun r => r.code = code) with
  | none => .error .ServiceNotFound
  | some r => .ok ⟨r.name, r.code, r.description, [], r.metadata⟩

/-- The row-to-instance decoder shared by `get_instances` and
`get_all_instances` (sqlite.rs); `service_name` is the queried code in
`get_instances` and the row's `service_code` column in `get_all_instances`;
`last_seen` is always set to 0 (the table has no such column). -/
def rowToInstance (service_name : String) (r : InstanceRow) : ServiceInstance :=
  { id := r.id
    service_name := service_name
    address := r.address
    protocol := parseProtocol r.protocol
    runtime := parseRuntime r.runtime
    metadata := r.metadata
    last_seen := 0
    health := parseHealth r.health }

/-- Operation get_instances (sqlite.rs): `SELECT ... WHERE service_code = ?1`; a
code with no matching rows yields `Ok` of the empty vector, not an error. -/
def get_instances (s : DbState) (service_code : String) :
    Except RegistryError (List ServiceInstance) :=
  .ok ((s.instances.filter (fun r => r.service_code = service_code)).map
    (rowToInstance service_code))

/-- Operation get_all_instances (sqlite.rs): `SELECT` over the whole table. -/
def get_all_instances (s : DbState) : Except RegistryError (List ServiceInstance) :=
  .ok (s.instances.map (fun r => rowToInstance r.service_code r))

/-- Operation update_instance_health (sqlite.rs): a plain `UPDATE instances SET
health = ?1 WHERE id = ?2`; the affected-row count is never inspected, so
the call succeeds whether or not a row matched. -/
def update_instance_health (s : DbState) (id : String) (health : HealthStatus) :
    Except RegistryError DbState :=
  .ok { s with instances := s.instances.map (fun r =>
    if r.id = id then { r with health := health.debugFmt } else r) }

/-- The role-column decoder in `get_identity` (sqlite.rs): unknown strings
default to `Viewer`. -/
def decodeRole (s : String) : Role :=
  if s = "Admin" then .Admin
  else if s = "Agent" then .Agent
  else if s = "Viewer" then .Viewer
  else .Viewer

/-- Operation get_identity (sqlite.rs): `query_row` on the `common_name` primary
key (absence maps to `ServiceNotFound`), then a `query_map` over
`identity_roles` decoding each stored role string. -/
def get_identity (s : DbState) (common_name : String) :
    Except RegistryError Identity :=
  match s.identities.find? (fun r => r.common_name = common_name) with
  | none => .error .ServiceNotFound
  | some r => .ok
      ⟨r.common_name, r.organization,
        (s.identity_roles.filter (fun q => q.1 = common_name)).map
          (fun q => decodeRole q.2)⟩

/-- Method `Role::permissions` (auth.rs): the fixed permission table, one
`HashSet` per role modelled as a list. -/
def Role.permissions : Role → List Permission
  | .Admin =>
      [.ServiceRead, .ServiceWrite, .InstanceRead, .InstanceWrite, .UserManage]
  | .Agent => [.ServiceRead, .InstanceRead, .InstanceWrite]
  | .Viewer => [.ServiceRead, .InstanceRead]

/-- The authorization check performed by the handlers (`list_services`,
`register_service` in logpose-server/src/main.rs):
`claims.roles.iter().any(|role| role.permissions().contains(&required))`. -/
def has_permission (claims : Claims) (required : Permission) : Bool :=
  claims.roles.any (fun role => role.permissions.contains required)

/-- Outcome of `TcpStream::connect` in the probe: `Ok(stream)` or an
I/O error (`connection refused` and kin). -/
inductive ConnectResult where
  | success
  | refused
deriving DecidableEq, Repr

/-- Outcome of `tokio::time::timeout(2s, connect)`: the inner future
completed in time, or the 2-second deadline elapsed. -/
inductive TimeoutResult where
  | completed (r : ConnectResult)
  | elapsed
deriving DecidableEq, Repr

/-- Function check_health (logpose-server/src/main.rs): `Ok(Ok(_)) => Healthy`,
every other outcome `=> Unhealthy`. -/
def check_health : TimeoutResult → HealthStatus
  | .completed .success => .Healthy
  | _ => .Unhealthy

/-- One cycle of the health worker loop (logpose-server/src/main.rs,
`tokio::spawn` block): snapshot `get_all_instances`, probe every instance
address, write each result back with `update_instance_health`, swallowing
per-instance errors (`let _ = ...`); `probe` abstracts the network. -/
def monitor_cycle (s : DbState) (probe : String → TimeoutResult) : DbState :=
  match get_all_instances s with
  | .error _ => s
  | .ok instances =>
      instances.foldl (fun st i =>
        match update_instance_health st i.id (check_health (probe i.address)) with
        | .ok st2 => st2
        | .error _ => st) s

/-- The `discover_service` handler (logpose-server/src/main.rs): 200 with
the instance list when `get_instances` succeeds, 404 when it errors. The
result is (HTTP status, optional JSON body). -/
def discover_service (s : DbState) (code : String) :
    Nat × Option (List ServiceInstance) :=
  match get_instances s code with
  | .ok instances => (200, some instances)
  | .error _ => (404, none)

/-! ## Helper lemmas -/

/-- Scanning past a run of characters satisfying `p` stops exactly at the
first failing character. -/
theorem takeWhile_append_cons (p : Char → Bool) (l1 : List Char) (c : Char)
    (l2 : List Char) (h1 : ∀ x ∈ l1, p x = true) (h2 : p c = false) :
    (l1 ++ c :: l2).takeWhile p = l1 := by
  induction l1 with
  | nil => simp [List.takeWhile_cons, h2]
  | cons a t ih =>
      have ha : p a = true := h1 a (by simp)
      simp only [List.cons_append, List.takeWhile_cons, ha, if_true]
      rw [ih (fun x hx => h1 x (by simp [hx]))]

/-- Characterisation of `firstToken` on a string whose data splits at its
first colon. -/
theorem firstTokenOfData (s : String) (l1 l2 : List Char)
    (hs : s.data = l1 ++ ':' :: l2) (h1 : ∀ x ∈ l1, x ≠ ':') :
    firstToken s = String.mk l1 := by
  unfold firstToken
  rw [hs, takeWhile_append_cons]
  · intro x hx; simpa using h1 x hx
  · rfl

/-- Round-trip of the stored runtime column for the `Container` variant:
the first colon of the Debug rendering sits after the field name, so the
decoder's token is the truncated text, not the tag. -/
theorem parseRuntime_debugFmt_container (cid : String) :
    parseRuntime (Runtime.debugFmt (.Container cid))
      = .Custom "Container \x7b container_id" := by
  have hd : (Runtime.debugFmt (.Container cid)).data
      = ("Container \x7b container_id" : String).data
          ++ ':' :: (" " ++ rustDebugStr cid ++ " \x7d").data := by
    show ("Container \x7b container_id: " ++ rustDebugStr cid ++ " \x7d").data = _
    simp only [String.data_append]
    simp
  have ft : firstToken (Runtime.debugFmt (.Container cid))
      = "Container \x7b container_id" :=
    firstTokenOfData _ _ _ hd (by decide)
  simp only [parseRuntime, ft]
  decide

/-- Round-trip of the stored runtime column for the `Vm` variant. -/
theorem parseRuntime_debugFmt_vm (p i : Option String) :
    parseRuntime (Runtime.debugFmt (.Vm p i)) = .Custom "Vm \x7b provider" := by
  have hd : (Runtime.debugFmt (.Vm p i)).data
      = ("Vm \x7b provider" : String).data
          ++ ':' :: (" " ++ optionDebugFmt p ++ ", id: "
              ++ optionDebugFmt i ++ " \x7d").data := by
    show ("Vm \x7b provider: " ++ optionDebugFmt p ++ ", id: "
        ++ optionDebugFmt i ++ " \x7d").data = _
    simp only [String.data_append]
    simp
  have ft : firstToken (Runtime.debugFmt (.Vm p i)) = "Vm \x7b provider" :=
    firstTokenOfData _ _ _ hd (by decide)
  simp only [parseRuntime, ft]
  decide

/-- Round-trip of the stored runtime column for the `Serverless` variant. -/
theorem parseRuntime_debugFmt_serverless (f : String) (rg : Option String) :
    parseRuntime (Runtime.debugFmt (.Serverless f rg))
      = .Custom "Serverless \x7b function_name" := by
  have hd : (Runtime.debugFmt (.Serverless f rg)).data
      = ("Serverless \x7b function_name" : String).data
          ++ ':' :: (" " ++ rustDebugStr f ++ ", region: "
              ++ optionDebugFmt rg ++ " \x7d").data := by
    show ("Serverless \x7b function_name: " ++ rustDebugStr f ++ ", region: "
        ++ optionDebugFmt rg ++ " \x7d").data = _
    simp only [String.data_append]
    simp
  have ft : firstToken (Runtime.debugFmt (.Serverless f rg))
      = "Serverless \x7b function_name" :=
    firstTokenOfData _ _ _ hd (by decide)
  simp only [parseRuntime, ft]
  decide

/-- The stored protocol column round-trips exactly on the five simple
variants. -/
def Protocol.isSimple : Protocol → Bool
  | .Custom _ => false
  | _ => true

/-- Decoding after encoding recovers every simple protocol variant. -/
theorem parseProtocol_debugFmt (p : Protocol) (hp : p.isSimple = true) :
    parseProtocol p.debugFmt = p := by
  cases p <;> simp_all [Protocol.isSimple] <;> rfl

/-- Decoding after encoding recovers every health value (including
`Unknown`, via the catch-all arm). -/
theorem parseHealth_debugFmt (h : HealthStatus) :
    parseHealth h.debugFmt = h := by
  cases h <;> rfl

/-! ## Concrete fixtures used by witnesses and counterexamples -/

/-- A concrete instance, as in the end-to-end scenario of the spec
(service `auth-svc`, address 127.0.0.1:9999, runtime Container). -/
def sampleInstance : ServiceInstance :=
  { id := "11111111-1111-4111-8111-111111111111"
    service_name := "auth-svc"
    address := "127.0.0.1:9999"
    protocol := .Http
    runtime := .Container "abc"
    metadata := []
    last_seen := 0
    health := .Unknown }

/-- The database state holding exactly `sampleInstance`'s row. -/
def sampleAdded : DbState :=
  { DbState.empty with instances := [instanceRow sampleInstance] }

/-- A populated state: one service, one instance, one identity with an
Admin role and one unrecognised role string. -/
def sampleState : DbState :=
  { services := [⟨"auth-svc", "Auth Service", "Handles auth", []⟩]
    instances := [instanceRow sampleInstance]
    identities := [⟨"admin.logpose.local", some "LogPose"⟩]
    identity_roles :=
      [("admin.logpose.local", "Admin"), ("admin.logpose.local", "SuperAdmin")] }

/-- Mapping a function that fixes every member of a list is the identity. -/
theorem map_eq_self_of_eq {α : Type} (l : List α) (f : α → α)
    (h : ∀ a ∈ l, f a = a) : l.map f = l := by
  induction l with
  | nil => rfl
  | cons a t ih =>
      simp only [List.map_cons, h a (by simp)]
      rw [ih (fun x hx => h x (by simp [hx]))]

/-- C1 counterexample: on the empty store (no instance row at all),
`update_instance_health` with a fresh id succeeds with `Ok(())` and leaves
the store unchanged; it does not fail with `InstanceNotFound` as the claim
states. -/
theorem update_instance_health_missing_id_succeeds :
    (DbState.empty.instances.all
      (fun r => r.id ≠ "11111111-1111-4111-8111-111111111111")) = true
    ∧ update_instance_health DbState.empty
        "11111111-1111-4111-8111-111111111111" .Healthy = .ok DbState.empty
    ∧ update_instance_health DbState.empty
        "11111111-1111-4111-8111-111111111111" .Healthy
        ≠ .error .InstanceNotFound :=
  ⟨rfl, rfl, fun hx => Except.noConfusion hx⟩

/-- C1 (amended): `update_instance_health` always succeeds; when a row
with the id exists its health column is set to the Debug rendering of the
given status and unrelated rows are kept; when no row matches, the store is
returned unchanged and no `InstanceNotFound` is reported. -/
theorem update_instance_health_spec (s : DbState) (id : String)
    (h : HealthStatus) :
    ∃ s2, update_instance_health s id h = .ok s2
      ∧ (∀ r2 ∈ s2.instances, r2.id = id → r2.health = h.debugFmt)
      ∧ (∀ r ∈ s.instances, r.id ≠ id → r ∈ s2.instances)
      ∧ ((∀ r ∈ s.instances, r.id ≠ id) → s2 = s) := by
  refine ⟨_, rfl, ?_, ?_, ?_⟩
  · intro r2 hr2 hid
    rcases List.mem_map.1 hr2 with ⟨r, hr, hfr⟩
    by_cases hc : r.id = id
    · subst hfr; simp [hc]
    · subst hfr; simp [hc] at hid
  · intro r hr hne
    exact List.mem_map.2 ⟨r, hr, by simp [hne]⟩
  · intro hall
    have hmap := map_eq_self_of_eq s.instances
      (fun r => if r.id = id then { r with health := h.debugFmt } else r)
      (fun r hr => by simp [hall r hr])
    rw [hmap]

/-- C1 amended witness: the amended theorem instantiated on a store holding
one instance row, for that row's id. -/
theorem update_instance_health_spec_witness :
    ∃ s2, update_instance_health sampleAdded
        "11111111-1111-4111-8111-111111111111" .Healthy = .ok s2
      ∧ (∀ r2 ∈ s2.instances,
          r2.id = "11111111-1111-4111-8111-111111111111" →
            r2.health = HealthStatus.debugFmt .Healthy)
      ∧ (∀ r ∈ sampleAdded.instances,
          r.id ≠ "11111111-1111-4111-8111-111111111111" → r ∈ s2.instances)
      ∧ ((∀ r ∈ sampleAdded.instances,
          r.id ≠ "11111111-1111-4111-8111-111111111111") → s2 = sampleAdded) :=
  update_instance_health_spec sampleAdded
    "11111111-1111-4111-8111-111111111111" .Healthy

/-- C2 counterexample: on the empty store, the code `nosuch` has no
registered service, yet the discover handler answers 200 with an empty
instance list, not 404. -/
theorem discover_unknown_code_200 :
    (DbState.empty.services.all (fun r => r.code ≠ "nosuch")) = true
    ∧ discover_service DbState.empty "nosuch" = (200, some [])
    ∧ (discover_service DbState.empty "nosuch").1 ≠ 404 :=
  ⟨rfl, rfl, by decide⟩

/-- C2 (amended): the discover handler answers 404 only when
`get_instances` fails; since `get_instances` reports an unknown code as an
empty list rather than an error, every request gets 200 with the stored
instance list, and a code with no instance rows (in particular an unknown
code) gets 200 with the empty list. -/
theorem discover_service_spec (s : DbState) (code : String) :
    (∃ lst, get_instances s code = .ok lst
      ∧ discover_service s code = (200, some lst))
    ∧ ((s.instances.all (fun r => r.service_code ≠ code)) = true →
        discover_service s code = (200, some [])) := by
  constructor
  · exact ⟨_, rfl, rfl⟩
  · intro h
    have hf : s.instances.filter (fun r => r.service_code = code) = [] := by
      rw [List.filter_eq_nil_iff]
      intro a ha
      have := (List.all_eq_true.1 h) a ha
      simpa using this
    simp only [discover_service, get_instances, hf, List.map_nil]

/-- C2 amended witness: the amended theorem instantiated on the empty
store and an unknown code; the second conjunct's hypothesis holds by
evaluation. -/
theorem discover_service_spec_witness :
    discover_service DbState.empty "nosuch" = (200, some []) :=
  (discover_service_spec DbState.empty "nosuch").2 rfl

/-- C3 counterexample: adding an instance with runtime
`Container \x7b container_id: "abc" \x7d` and reading it back does not recover a
`Container` variant with dropped fields; the decoder's `split(':')` token
is `"Container \x7b container_id"` (the Debug text up to the first colon,
which sits after the field name), so the result is that `Custom` value,
not `Container ""`. -/
theorem runtime_tag_not_recovered :
    add_instance DbState.empty sampleInstance = .ok sampleAdded
    ∧ sampleInstance.runtime = .Container "abc"
    ∧ get_instances sampleAdded "auth-svc"
        = .ok [{ sampleInstance with runtime := .Custom "Container \x7b container_id" }]
    ∧ Runtime.Custom "Container \x7b container_id" ≠ .Container "" := by
  refine ⟨rfl, rfl, rfl, by decide⟩

/-- C3 (amended): for every compound runtime variant (Vm, Container,
Serverless), `add_instance` followed by `get_instances` does not preserve
the variant tag: the stored Debug text's first colon falls after the first
field name, so the decoder returns `Runtime.Custom` of the truncated text
(`"Vm \x7b provider"`, `"Container \x7b container_id"`,
`"Serverless \x7b function_name"` respectively), for every payload the
variant carried. -/
theorem runtime_roundtrip_truncated :
    (∀ p i, parseRuntime (Runtime.debugFmt (.Vm p i)) = .Custom "Vm \x7b provider")
    ∧ (∀ cid, parseRuntime (Runtime.debugFmt (.Container cid))
        = .Custom "Container \x7b container_id")
    ∧ (∀ f rg, parseRuntime (Runtime.debugFmt (.Serverless f rg))
        = .Custom "Serverless \x7b function_name")
    ∧ (∀ (s s2 : DbState) (i : ServiceInstance) (lst : List ServiceInstance),
        add_instance s i = .ok s2 →
        get_instances s2 i.service_name = .ok lst →
        ∃ j ∈ lst, j.id = i.id ∧ j.runtime = parseRuntime i.runtime.debugFmt) := by
  refine ⟨parseRuntime_debugFmt_vm, parseRuntime_debugFmt_container,
    parseRuntime_debugFmt_serverless, ?_⟩
  intro s s2 i lst hadd hget
  cases hadd
  cases hget
  refine ⟨rowToInstance i.service_name (instanceRow i), ?_, rfl, rfl⟩
  exact List.mem_map_of_mem _
    (List.mem_filter.2
      ⟨List.mem_append_right _ (by simp), by simp [instanceRow]⟩)

/-- C3 amended witness: the end-to-end conjunct instantiated on the
concrete Container instance. -/
theorem runtime_roundtrip_truncated_witness :
    ∃ j ∈ [{ sampleInstance with runtime := Runtime.Custom "Container \x7b container_id" }],
      j.id = sampleInstance.id
        ∧ j.runtime = parseRuntime sampleInstance.runtime.debugFmt :=
  runtime_roundtrip_truncated.2.2.2 DbState.empty sampleAdded sampleInstance
    [{ sampleInstance with runtime := Runtime.Custom "Container \x7b container_id" }]
    rfl rfl

/-- C4: `add_service` called twice with the same code (any descriptions)
never errors and leaves exactly one `services` row for that code, carrying
the second call's name, description and metadata. -/
theorem add_service_upsert (s : DbState) (svc1 svc2 : Service)
    (hcode : svc1.code = svc2.code) :
    ∃ s1 s2, add_service s svc1 = .ok s1 ∧ add_service s1 svc2 = .ok s2
      ∧ s2.services.filter (fun r => r.code = svc2.code)
          = [⟨svc2.code, svc2.name, svc2.description, svc2.metadata⟩] := by
  refine ⟨_, _, rfl, rfl, ?_⟩
  simp only [add_service, List.filter_append]
  have h1 : ∀ l : List ServiceRow,
      (l.filter (fun r => r.code ≠ svc2.code)).filter
        (fun r => r.code = svc2.code) = [] := by
    intro l
    rw [List.filter_eq_nil_iff]
    intro a ha
    have := (List.mem_filter.1 ha).2
    simpa using this
  rw [h1]
  simp [hcode]

/-- C4 witness: the upsert theorem instantiated on two concrete services
sharing the code `auth-svc` with different descriptions. -/
theorem add_service_upsert_witness :
    ∃ s1 s2,
      add_service DbState.empty ⟨"Auth Service", "auth-svc", "old desc", [], []⟩
          = .ok s1
      ∧ add_service s1 ⟨"Auth Service", "auth-svc", "new desc", [], []⟩ = .ok s2
      ∧ s2.services.filter (fun r => r.code = "auth-svc")
          = [⟨"auth-svc", "Auth Service", "new desc", []⟩] :=
  add_service_upsert DbState.empty
    ⟨"Auth Service", "auth-svc", "old desc", [], []⟩
    ⟨"Auth Service", "auth-svc", "new desc", [], []⟩ rfl

/-- C5: the permission table is exactly the spec's fixed table (Admin all
five, Agent three, Viewer two), and the handlers' authorization check
(`has_permission`) succeeds iff some role in the claims' role list resolves
to a set containing the required permission. -/
theorem permissions_table_and_authorize :
    (∀ p : Permission, p ∈ Role.permissions .Admin ↔
      (p = .ServiceRead ∨ p = .ServiceWrite ∨ p = .InstanceRead
        ∨ p = .InstanceWrite ∨ p = .UserManage))
    ∧ (∀ p : Permission, p ∈ Role.permissions .Agent ↔
        (p = .ServiceRead ∨ p = .InstanceRead ∨ p = .InstanceWrite))
    ∧ (∀ p : Permission, p ∈ Role.permissions .Viewer ↔
        (p = .ServiceRead ∨ p = .InstanceRead))
    ∧ (∀ (c : Claims) (p : Permission),
        has_permission c p = true ↔ ∃ r ∈ c.roles, p ∈ Role.permissions r) := by
  refine ⟨?_, ?_, ?_, ?_⟩
  · intro p; cases p <;> simp [Role.permissions]
  · intro p; cases p <;> simp [Role.permissions]
  · intro p; cases p <;> simp [Role.permissions]
  · intro c p
    simp [has_permission, List.any_eq_true, List.elem_eq_mem]

/-- C5 witness: an Admin-role claim passes the ServiceRead check, through
the authorize conjunct of the table theorem. -/
theorem permissions_table_and_authorize_witness :
    has_permission ⟨"admin.logpose.local", [.Admin], 10000000000⟩
      .ServiceRead = true :=
  (permissions_table_and_authorize.2.2.2
    ⟨"admin.logpose.local", [.Admin], 10000000000⟩ .ServiceRead).2
    ⟨.Admin, by simp, by simp [Role.permissions]⟩

/-- The probe never yields `Unknown`. -/
theorem check_health_ne_unknown (o : TimeoutResult) :
    check_health o ≠ .Unknown := by
  cases o with
  | completed c => cases c <;> decide
  | elapsed => decide

/-- After the monitor's fold has processed a list of instances covering
every row id whose health is still unset, every row carries a probed
health string. -/
theorem monitor_fold_health (l : List ServiceInstance)
    (probe : String → TimeoutResult) :
    ∀ s : DbState,
      (∀ r ∈ s.instances, r.id ∈ l.map (fun i => i.id)
        ∨ r.health = "Healthy" ∨ r.health = "Unhealthy") →
      ∀ r2 ∈ (l.foldl (fun st i =>
          match update_instance_health st i.id (check_health (probe i.address)) with
          | .ok st2 => st2
          | .error _ => st) s).instances,
        r2.health = "Healthy" ∨ r2.health = "Unhealthy" := by
  induction l with
  | nil =>
      intro s hs r2 hr2
      rcases hs r2 hr2 with h | h | h
      · simp at h
      · exact Or.inl h
      · exact Or.inr h
  | cons i t ih =>
      intro s hs
      simp only [List.foldl_cons]
      apply ih
      intro r hr
      simp only [update_instance_health] at hr
      rcases List.mem_map.1 hr with ⟨r0, hr0, hfr⟩
      by_cases hc : r0.id = i.id
      · subst hfr
        simp only [hc, if_true]
        cases hh : check_health (probe i.address) with
        | Healthy => right; left; rfl
        | Unhealthy => right; right; rfl
        | Unknown => exact absurd hh (check_health_ne_unknown _)
      · subst hfr
        simp only [hc, if_false]
        rcases hs r0 hr0 with h | h | h
        · simp only [List.map_cons, List.mem_cons] at h
          rcases h with h | h
          · exact absurd h hc
          · exact Or.inl (by simpa using h)
        · exact Or.inr (Or.inl h)
        · exact Or.inr (Or.inr h)

/-- C6: the probe maps in-time connection success to `Healthy` and
everything else — connection refusal or the elapsed 2-second timeout,
indistinguishably — to `Unhealthy`; it never yields `Unknown`, and after a
monitor cycle every instance row's health column is a probed value
(`Healthy` or `Unhealthy`), never `Unknown`. -/
theorem check_health_spec :
    (∀ o, check_health o ≠ .Unknown)
    ∧ (∀ o, check_health o = .Healthy ↔ o = .completed .success)
    ∧ check_health (.completed .refused) = .Unhealthy
    ∧ check_health .elapsed = .Unhealthy
    ∧ (∀ (s : DbState) (probe : String → TimeoutResult),
        ∀ r ∈ (monitor_cycle s probe).instances,
          r.health = "Healthy" ∨ r.health = "Unhealthy") := by
  refine ⟨check_health_ne_unknown, ?_, rfl, rfl, ?_⟩
  · intro o
    cases o with
    | completed c => cases c <;> decide
    | elapsed => decide
  · intro s probe r hr
    have hinv : ∀ r0 ∈ s.instances,
        r0.id ∈ (s.instances.map
            (fun x => rowToInstance x.service_code x)).map (fun i => i.id)
          ∨ r0.health = "Healthy" ∨ r0.health = "Unhealthy" :=
      fun r0 hr0 => Or.inl
        (List.mem_map.2 ⟨rowToInstance r0.service_code r0,
          List.mem_map.2 ⟨r0, hr0, rfl⟩, rfl⟩)
    have hr2 : r ∈ ((s.instances.map
        (fun x => rowToInstance x.service_code x)).foldl
          (fun st i =>
            match update_instance_health st i.id
                (check_health (probe i.address)) with
            | .ok st2 => st2
            | .error _ => st) s).instances := hr
    exact monitor_fold_health
      (s.instances.map (fun x => rowToInstance x.service_code x))
      probe s hinv r hr2

/-- C6 witness: one monitor cycle over the one-instance store with a
timing-out probe leaves that row `Unhealthy`. -/
theorem check_health_spec_witness :
    (instanceRow { sampleInstance with health := .Unhealthy }).health = "Healthy"
      ∨ (instanceRow { sampleInstance with health := .Unhealthy }).health
          = "Unhealthy" :=
  check_health_spec.2.2.2.2 sampleAdded (fun _ => .elapsed)
    (instanceRow { sampleInstance with health := .Unhealthy })
    (List.mem_singleton.2 rfl)

/-- C7: `get_service` fails with `ServiceNotFound` when no services row
carries the code, and any `Service` it does return has an empty
`instances` field. -/
theorem get_service_spec (s : DbState) (code : String) :
    ((∀ r ∈ s.services, r.code ≠ code) →
      get_service s code = .error .ServiceNotFound)
    ∧ (∀ svc, get_service s code = .ok svc → svc.instances = []) := by
  constructor
  · intro h
    have hf : s.services.find? (fun r => r.code = code) = none := by
      rw [List.find?_eq_none]
      intro a ha
      simpa using h a ha
    simp [get_service, hf]
  · intro svc hsvc
    cases hf : s.services.find? (fun r => r.code = code) with
    | none => simp [get_service, hf] at hsvc
    | some r =>
        simp only [get_service, hf] at hsvc
        cases hsvc
        rfl

/-- C7 witness: the not-found half on the empty store, and the
empty-instances half on the populated store. -/
theorem get_service_spec_witness :
    get_service DbState.empty "nosuch" = .error .ServiceNotFound
    ∧ (Service.instances ⟨"Auth Service", "auth-svc", "Handles auth", [], []⟩
        = []) :=
  ⟨(get_service_spec DbState.empty "nosuch").1 (by simp [DbState.empty]),
    (get_service_spec sampleState "auth-svc").2
      ⟨"Auth Service", "auth-svc", "Handles auth", [], []⟩ rfl⟩

/-- C8: for an instance whose protocol is one of the five simple variants
and whose health is any status, `add_instance` followed by `get_instances`
recovers an instance with the same id carrying exactly the same protocol
and health; and every returned instance with that id carries them. -/
theorem simple_tags_roundtrip (s s2 : DbState) (i : ServiceInstance)
    (lst : List ServiceInstance)
    (hp : i.protocol.isSimple = true)
    (hadd : add_instance s i = .ok s2)
    (hget : get_instances s2 i.service_name = .ok lst) :
    (∃ j ∈ lst, j.id = i.id ∧ j.protocol = i.protocol ∧ j.health = i.health)
    ∧ (∀ j ∈ lst, j.id = i.id →
        (j.protocol = i.protocol ∧ j.health = i.health)) := by
  cases hadd
  cases hget
  have hvals : (rowToInstance i.service_name (instanceRow i)).protocol = i.protocol
      ∧ (rowToInstance i.service_name (instanceRow i)).health = i.health := by
    constructor
    · exact parseProtocol_debugFmt i.protocol hp
    · exact parseHealth_debugFmt i.health
  constructor
  · refine ⟨rowToInstance i.service_name (instanceRow i), ?_, rfl,
      hvals.1, hvals.2⟩
    exact List.mem_map_of_mem _
      (List.mem_filter.2
        ⟨List.mem_append_right _ (by simp), by simp [instanceRow]⟩)
  · intro j hj hid
    rcases List.mem_map.1 hj with ⟨r, hr, hjr⟩
    rcases List.mem_filter.1 hr with ⟨hr2, _⟩
    rcases List.mem_append.1 hr2 with hold | hnew
    · rcases List.mem_filter.1 hold with ⟨_, hne⟩
      subst hjr
      exact absurd hid (by simpa [rowToInstance] using hne)
    · have : r = instanceRow i := by simpa using hnew
      subst this
      subst hjr
      exact hvals

/-- C8 witness: the round-trip theorem instantiated on the concrete Http
instance (protocol and health recovered exactly). -/
theorem simple_tags_roundtrip_witness :
    ∃ j ∈ [{ sampleInstance with
        runtime := Runtime.Custom "Container \x7b container_id" }],
      j.id = sampleInstance.id ∧ j.protocol = sampleInstance.protocol
        ∧ j.health = sampleInstance.health :=
  (simple_tags_roundtrip DbState.empty sampleAdded sampleInstance
    [{ sampleInstance with
        runtime := Runtime.Custom "Container \x7b container_id" }]
    rfl rfl rfl).1

/-- C9: the `instances` table has no `last_seen` column — the row written
by `add_instance` is unchanged by the instance's `last_seen` value — and
both readers reconstruct every returned instance with `last_seen = 0`. -/
theorem last_seen_not_persisted (s : DbState) (code : String)
    (lst lst2 : List ServiceInstance)
    (h1 : get_instances s code = .ok lst)
    (h2 : get_all_instances s = .ok lst2) :
    (∀ (i : ServiceInstance) (n : Nat),
      instanceRow { i with last_seen := n } = instanceRow i)
    ∧ (∀ j ∈ lst, j.last_seen = 0)
    ∧ (∀ j ∈ lst2, j.last_seen = 0) := by
  cases h1
  cases h2
  refine ⟨fun i n => rfl, ?_, ?_⟩
  · intro j hj
    rcases List.mem_map.1 hj with ⟨r, _, hjr⟩
    subst hjr
    rfl
  · intro j hj
    rcases List.mem_map.1 hj with ⟨r, _, hjr⟩
    subst hjr
    rfl

/-- C9 witness: the instance read back from the one-row store has
`last_seen = 0`. -/
theorem last_seen_not_persisted_witness :
    ({ sampleInstance with
        runtime := Runtime.Custom "Container \x7b container_id" }
      : ServiceInstance).last_seen = 0 :=
  (last_seen_not_persisted sampleAdded "auth-svc" _ _ rfl rfl).2.1 _
    (List.mem_singleton.2 rfl)

/-- C10: the role decoder maps every string other than Admin/Agent/Viewer
to `Viewer`, and `get_identity` succeeds whenever the identity row exists,
decoding each stored role string with that decoder — so an unrecognised
stored role never makes it fail. -/
theorem get_identity_role_fallback (s : DbState) (cn : String) :
    (∀ str : String, str ≠ "Admin" → str ≠ "Agent" → str ≠ "Viewer" →
      decodeRole str = .Viewer)
    ∧ (∀ row ∈ s.identities, row.common_name = cn →
        ∃ ident, get_identity s cn = .ok ident
          ∧ ident.roles = (s.identity_roles.filter (fun q => q.1 = cn)).map
              (fun q => decodeRole q.2)) := by
  constructor
  · intro str h1 h2 h3
    simp [decodeRole, h1, h2, h3]
  · intro row hrow hcn
    cases hf : s.identities.find? (fun r => r.common_name = cn) with
    | none =>
        have := List.find?_eq_none.1 hf row hrow
        simp [hcn] at this
    | some r =>
        exact ⟨⟨r.common_name, r.organization,
          (s.identity_roles.filter (fun q => q.1 = cn)).map
            (fun q => decodeRole q.2)⟩, by simp [get_identity, hf], rfl⟩

/-- C10 witness: `SuperAdmin` is not a recognised role string yet
`get_identity` on the populated store succeeds, decoding the role list to
`[Admin, Viewer]`. -/
theorem get_identity_role_fallback_witness :
    decodeRole "SuperAdmin" = .Viewer
    ∧ ∃ ident,
        get_identity sampleState "admin.logpose.local" = .ok ident
        ∧ ident.roles = (sampleState.identity_roles.filter
            (fun q => q.1 = "admin.logpose.local")).map
              (fun q => decodeRole q.2) :=
  ⟨(get_identity_role_fallback sampleState "admin.logpose.local").1
      "SuperAdmin" (by decide) (by decide) (by decide),
    (get_identity_role_fallback sampleState "admin.logpose.local").2
      ⟨"admin.logpose.local", some "LogPose"⟩ (List.mem_singleton.2 rfl) rfl⟩
